import Mathlib

/-!
Verification of the ESG dashboard core (`app.py`) against its specification.

The script is embedded shallowly:

* numeric values are rationals (`ℚ`); pandas/numpy `round(1)` is modelled by
  `round1`, decimal rounding with ties to even (numpy's rounding rule);
* a pandas `DataFrame` is a row-major table: a header list plus rows of cells;
* Python's `list({"Company", "E", "S", "G"})` enumerates a hash set in an order
  that is not fixed by the language (hash randomisation), so every definition
  that performs the `new_df[list(required)]` projection takes the enumeration
  order as an explicit `enum` parameter, quantified over permutations of the
  four canonical names;
* one Streamlit rerun of the script is the pure function `scriptRun`: the
  script rebuilds `df` from the hardcoded sample data at the top of every run
  and only replaces it when an upload parses successfully, so `scriptRun`
  depends on the current upload alone, never on a previous run's table.
-/

/-- A table cell: pandas object (string) or numeric value. -/
inductive Cell where
  | str (s : String) : Cell
  | num (q : ℚ) : Cell
deriving DecidableEq, Repr

/-- A pandas DataFrame, row-major: ordered column headers plus rows of cells.
`app.py` accesses columns by label, modelled by position of the label in
`headers`. -/
structure DataFrame where
  headers : List String
  rows : List (List Cell)
deriving DecidableEq, Repr

/-- Round to the nearest integer, ties to even — the rounding rule of
numpy's `round`, used by `df.round(1)` in `app.py` lines 43/70/105. -/
def roundHalfEven (x : ℚ) : ℤ :=
  if x - x.floor = 1 / 2 then (if x.floor % 2 = 0 then x.floor else x.floor + 1)
  else (x + 1 / 2).floor

/-- `((...) / 3).round(1)`'s rounding step: round to one decimal place. -/
def round1 (x : ℚ) : ℚ := (roundHalfEven (10 * x) : ℚ) / 10

/-- The risk lambda of `app.py` lines 44/71-73/106-108:
`"Low" if x >= 80 else ("Medium" if x >= 60 else "High")`. -/
def risk (x : ℚ) : String :=
  if 80 ≤ x then "Low" else if 60 ≤ x then "Medium" else "High"

/-- Numeric view of a cell; arithmetic in `app.py` is only applied to columns
that hold numbers. -/
def asNum : Cell → ℚ
  | .str _ => 0
  | .num q => q

/-- Label-based cell access: the cell of row `r` under header `name`
(first occurrence, as `df[name]` resolves a unique label). -/
def cellAt (headers : List String) (r : List Cell) (name : String) : Cell :=
  r.getD (headers.indexOf name) (Cell.str "")

/-- Lines 43-44 / 70-73 / 105-108 of `app.py`: append the derived columns
`df["ESG Score"] = ((df["E"] + df["S"] + df["G"]) / 3).round(1)` and
`df["Risk"] = df["ESG Score"].apply(lambda ...)`. -/
def addDerived (df : DataFrame) : DataFrame :=
  ⟨df.headers ++ ["ESG Score", "Risk"],
   df.rows.map (fun r =>
     let e := asNum (cellAt df.headers r "E")
     let s := asNum (cellAt df.headers r "S")
     let g := asNum (cellAt df.headers r "G")
     let m := round1 ((e + s + g) / 3)
     r ++ [Cell.num m, Cell.str (risk m)])⟩

/-- The hardcoded `sample_data` of `app.py` lines 36-42, as a DataFrame. -/
def sampleDF : DataFrame :=
  ⟨["Company", "E", "S", "G"],
   [[.str "Tesla", .num 75, .num 65, .num 78],
    [.str "Apple", .num 85, .num 90, .num 89],
    [.str "Microsoft", .num 92, .num 88, .num 91],
    [.str "Amazon", .num 70, .num 60, .num 73],
    [.str "Google", .num 88, .num 80, .num 87]]⟩

/-- `needle` is an initial segment of `hay` (character lists). -/
def isPrefList : List Char → List Char → Bool
  | [], _ => true
  | _ :: _, [] => false
  | a :: as, b :: bs => a == b && isPrefList as bs

/-- `needle` occurs as a contiguous segment of `hay` (character lists). -/
def containsSub (needle : List Char) : List Char → Bool
  | [] => needle.isEmpty
  | c :: t => isPrefList needle (c :: t) || containsSub needle t

/-- Python's substring test `needle in hay` on strings. -/
def strContains (hay needle : String) : Bool :=
  containsSub needle.data hay.data

/-- Python's `str.strip()` (as used by `new_df.columns.str.strip()`):
drop leading and trailing whitespace. -/
def pyStrip (s : String) : String :=
  String.mk (((s.data.dropWhile Char.isWhitespace).reverse.dropWhile Char.isWhitespace).reverse)

/-- Python's `str.lower()` on the ASCII headers the claims exercise. -/
def pyLower (s : String) : String :=
  String.mk (s.data.map Char.toLower)

/-- The `col_map` rule chain of `app.py` lines 60-64, applied to one
(already stripped) header: lower-case it, then first match wins among
env/e → E, soc/s → S, gov/g → G, comp → Company; otherwise unmapped. -/
def colMapLookup (col : String) : Option String :=
  let c := pyLower col
  if strContains c "env" || c == "e" then some "E"
  else if strContains c "soc" || c == "s" then some "S"
  else if strContains c "gov" || c == "g" then some "G"
  else if strContains c "comp" then some "Company"
  else none

/-- `new_df.rename(columns=col_map)` on one stripped header: mapped headers
get their canonical name, unmapped headers keep their (stripped) name. -/
def renameHeader (col : String) : String := (colMapLookup col).getD col

/-- The `required` canonical columns, `{"Company", "E", "S", "G"}`. -/
def canonicalCols : List String := ["Company", "E", "S", "G"]

/-- `df[names]`: project a DataFrame to the labelled columns, in the order
of `names` (each label resolved to its first occurrence). -/
def projectCols (df : DataFrame) (names : List String) : DataFrame :=
  ⟨names, df.rows.map (fun r => names.map (fun n => r.getD (df.headers.indexOf n) (Cell.str "")))⟩

/-- `app.py` lines 56-69, the CSV column normalisation: strip header
whitespace, rename via the `col_map` rules, and if all of `required` is
present project to `new_df[list(required)]`; otherwise report the missing
canonical columns (`required - set(new_df.columns)`, here listed in
canonical order). `enum` is the runtime's enumeration order of the Python
set `required`. -/
def normalizeCsv (raw : DataFrame) (enum : List String) : Except (List String) DataFrame :=
  let renamed : DataFrame := ⟨(raw.headers.map pyStrip).map renameHeader, raw.rows⟩
  let missing := canonicalCols.filter (fun n => !(renamed.headers.contains n))
  if missing = [] then .ok (projectCols renamed enum) else .error missing

/-- Decimal value of a digit list (most significant first); callers pass
digit characters only. -/
def digitsToNat (cs : List Char) : ℕ :=
  cs.foldl (fun a c => 10 * a + (c.toNat - 48)) 0

/-- Exponent suffix of a Python float literal: optional sign then digits,
which must consume the rest of the token. -/
def pyFloatExp (mant : ℚ) (t : List Char) : Option ℚ :=
  let (esgn, t1) : ℤ × List Char :=
    match t with
    | '+' :: u => (1, u)
    | '-' :: u => (-1, u)
    | u => (1, u)
  let ed := t1.takeWhile Char.isDigit
  let r3 := t1.dropWhile Char.isDigit
  if ed.isEmpty || !r3.isEmpty then none
  else some (mant * (10 : ℚ) ^ (esgn * (digitsToNat ed : ℤ)))

/-- Python's `float(token)` on a whitespace-free token: optional sign,
decimal digits with optional fractional part, optional exponent.
The `inf`/`nan` and underscore-separated literal forms are not modelled;
no token of the claims uses them. -/
def pyFloat (s : String) : Option ℚ :=
  let (sgn, cs1) : ℚ × List Char :=
    match s.data with
    | '+' :: t => (1, t)
    | '-' :: t => (-1, t)
    | cs => (1, cs)
  let ip := cs1.takeWhile Char.isDigit
  let r1 := cs1.dropWhile Char.isDigit
  let (fp, r2) : List Char × List Char :=
    match r1 with
    | '.' :: t => (t.takeWhile Char.isDigit, t.dropWhile Char.isDigit)
    | _ => ([], r1)
  if ip.isEmpty && fp.isEmpty then none
  else
    let mant : ℚ := sgn * ((digitsToNat ip : ℚ) + (digitsToNat fp : ℚ) / (10 : ℚ) ^ fp.length)
    match r2 with
    | [] => some mant
    | 'e' :: t => pyFloatExp mant t
    | 'E' :: t => pyFloatExp mant t
    | _ => none

/-- Accumulator loop behind `lineTokens`: `acc` holds the current token's
characters in reverse. -/
def wordsAux : List Char → List Char → List String
  | [], acc => if acc.isEmpty then [] else [String.mk acc.reverse]
  | c :: t, acc =>
      if c.isWhitespace then
        if acc.isEmpty then wordsAux t [] else String.mk acc.reverse :: wordsAux t []
      else wordsAux t (c :: acc)

/-- Python's `line.split()`: split on whitespace runs, dropping empty
tokens. -/
def lineTokens (line : String) : List String :=
  wordsAux line.data []

/-- One iteration of the PDF line loop, `app.py` lines 94-102: split the
line; with at least 4 tokens, take token 0 as Company and parse tokens
1-3 as floats; any parse failure discards the line. -/
def processLine (line : String) : Option (List Cell) :=
  let parts := lineTokens line
  if 4 ≤ parts.length then
    match pyFloat (parts.getD 1 ""), pyFloat (parts.getD 2 ""), pyFloat (parts.getD 3 "") with
    | some e, some s, some g =>
        some [Cell.str (parts.getD 0 ""), Cell.num e, Cell.num s, Cell.num g]
    | _, _, _ => none
  else none

/-- Accumulator loop behind `splitLines`. -/
def splitLinesAux : List Char → List Char → List String
  | [], acc => [String.mk acc.reverse]
  | c :: t, acc =>
      if c = '\n' then String.mk acc.reverse :: splitLinesAux t []
      else splitLinesAux t (c :: acc)

/-- `text.splitlines()` on newline-separated extracted text (a final empty
segment after a trailing newline holds fewer than 4 tokens and is discarded
by the line loop either way). -/
def splitLines (text : String) : List String := splitLinesAux text.data []

/-- The accumulated `rows` of the PDF heuristic, in line order. -/
def pdfRows (text : String) : List (List Cell) :=
  (splitLines text).filterMap processLine

/-- The user-visible error branches of `app.py`: the missing-columns
message of line 76 and the no-rows message of line 111. -/
inductive RunError where
  | missingColumns (cols : List String) : RunError
  | noDataExtracted : RunError
deriving DecidableEq, Repr

/-- The upload state of one rerun: no (successfully read) upload, a parsed
CSV table, or the text extracted from a PDF. -/
inductive Upload where
  | noUpload : Upload
  | csv (raw : DataFrame) : Upload
  | pdf (text : String) : Upload

/-- One full rerun of `app.py`: `df` is rebuilt from `sample_data` and
scored (lines 42-44), then replaced only when the upload normalises /
extracts successfully; on failure an error is emitted and `df` keeps the
freshly rebuilt sample value. Returns the displayed table and the error
message, if any. -/
def scriptRun (u : Upload) (enum : List String) : DataFrame × Option RunError :=
  match u with
  | .noUpload => (addDerived sampleDF, none)
  | .csv raw =>
      match normalizeCsv raw enum with
      | .ok t => (addDerived t, none)
      | .error missing => (addDerived sampleDF, some (.missingColumns missing))
  | .pdf text =>
      let rs := pdfRows text
      if rs.isEmpty then (addDerived sampleDF, some .noDataExtracted)
      else (addDerived ⟨canonicalCols, rs⟩, none)

/-- The download artifact of `st.download_button`, `app.py` lines 127-132:
`df.to_csv(index=False).encode("utf-8")` (default separator `,`, header
row included) offered as `esg_scores.csv` with MIME `text/csv`. -/
structure Download where
  fileName : String
  mime : String
  encoding : String
  sep : String
  includeHeader : Bool
  data : DataFrame

/-- Build the download artifact from the active table. -/
def downloadArtifact (df : DataFrame) : Download :=
  ⟨"esg_scores.csv", "text/csv", "utf-8", ",", true, df⟩

/-- The cells of the column labelled `n`, top to bottom. -/
def colByName (df : DataFrame) (n : String) : List Cell :=
  df.rows.map (fun r => cellAt df.headers r n)

/-! ### Helper lemmas about the embedding -/

theorem risk_low_iff (x : ℚ) : risk x = "Low" ↔ 80 ≤ x := by
  unfold risk
  split
  · rename_i h; simp [h]
  · rename_i h
    split <;> { constructor <;> intro hh <;> first | (exact absurd hh (by decide)) | (exact absurd hh h) }

theorem risk_medium_iff (x : ℚ) : risk x = "Medium" ↔ 60 ≤ x ∧ x < 80 := by
  unfold risk
  split
  · rename_i h
    constructor
    · intro hh; exact absurd hh (by decide)
    · rintro ⟨-, hh⟩; exact absurd h (not_le.mpr hh)
  · rename_i h
    split
    · rename_i h2; simp [h2, lt_of_not_le h]
    · rename_i h2
      constructor
      · intro hh; exact absurd hh (by decide)
      · rintro ⟨hh, -⟩; exact absurd hh h2

theorem risk_high_iff (x : ℚ) : risk x = "High" ↔ x < 60 := by
  unfold risk
  split
  · rename_i h
    constructor
    · intro hh; exact absurd hh (by decide)
    · intro hh; exact absurd h (not_le.mpr (hh.trans (by norm_num)))
  · rename_i h
    split
    · rename_i h2
      constructor
      · intro hh; exact absurd hh (by decide)
      · intro hh; exact absurd h2 (not_le.mpr hh)
    · rename_i h2; simp [lt_of_not_le h2]

theorem getD_map_indexOf {β : Type} (l : List String) (n : String) (f : String → β) (d : β)
    (h : n ∈ l) : (l.map f).getD (l.indexOf n) d = f n := by
  have hlt : l.indexOf n < l.length := List.indexOf_lt_length.mpr h
  rw [List.getD_eq_getElem _ _ (by simpa using hlt), List.getElem_map, List.getElem_indexOf hlt]

theorem indexOf_append_right_of_not_mem (l1 l2 : List String) (a : String) (h : a ∉ l1) :
    (l1 ++ l2).indexOf a = l1.length + l2.indexOf a := by
  induction l1 with
  | nil => simp
  | cons b t ih =>
      have hba : b ≠ a := fun hba => h (hba ▸ List.mem_cons_self b t)
      have hat : a ∉ t := fun hm => h (List.mem_cons_of_mem b hm)
      simp only [List.cons_append, List.indexOf_cons_ne _ hba, ih hat, List.length_cons]
      omega

theorem cellAt_append_old (hs ext : List String) (r extr : List Cell) (n : String)
    (hn : n ∈ hs) (hlen : r.length = hs.length) :
    cellAt (hs ++ ext) (r ++ extr) n = cellAt hs r n := by
  unfold cellAt
  rw [List.indexOf_append_of_mem hn]
  exact List.getD_append _ _ _ _ (hlen ▸ List.indexOf_lt_length.mpr hn)

theorem cellAt_append_new (hs ext : List String) (r extr : List Cell) (n : String)
    (hn : n ∉ hs) (hlen : r.length = hs.length) :
    cellAt (hs ++ ext) (r ++ extr) n = cellAt ext extr n := by
  unfold cellAt
  rw [indexOf_append_right_of_not_mem _ _ _ hn, List.getD_append_right _ _ _ _ (by omega)]
  congr 1
  omega

/-- A table is rectangular when every row has one cell per header. -/
def Rect (df : DataFrame) : Prop := ∀ r ∈ df.rows, r.length = df.headers.length

/-- The rounded mean of a row's E/S/G cells, the value assigned to the
`ESG Score` cell by `addDerived`. -/
def derivedOf (hs : List String) (r : List Cell) : ℚ :=
  round1 ((asNum (cellAt hs r "E") + asNum (cellAt hs r "S") + asNum (cellAt hs r "G")) / 3)

theorem addDerived_eq (B : DataFrame) :
    addDerived B = ⟨B.headers ++ ["ESG Score", "Risk"],
      B.rows.map (fun r =>
        r ++ [Cell.num (derivedOf B.headers r), Cell.str (risk (derivedOf B.headers r))])⟩ := rfl

/-- Every row of a scored table carries derived cells computed from its own
E/S/G cells: the shape shared by the sample, CSV and PDF paths. -/
theorem addDerived_row_spec (B : DataFrame)
    (hE : "E" ∈ B.headers) (hS : "S" ∈ B.headers) (hG : "G" ∈ B.headers)
    (hESG : "ESG Score" ∉ B.headers) (hRK : "Risk" ∉ B.headers) (hrect : Rect B) :
    ∀ r ∈ (addDerived B).rows,
      cellAt (addDerived B).headers r "ESG Score" =
        Cell.num (round1 ((asNum (cellAt (addDerived B).headers r "E") +
          asNum (cellAt (addDerived B).headers r "S") +
          asNum (cellAt (addDerived B).headers r "G")) / 3)) ∧
      cellAt (addDerived B).headers r "Risk" =
        Cell.str (risk (round1 ((asNum (cellAt (addDerived B).headers r "E") +
          asNum (cellAt (addDerived B).headers r "S") +
          asNum (cellAt (addDerived B).headers r "G")) / 3))) := by
  intro r hr
  rw [addDerived_eq] at hr ⊢
  simp only [List.mem_map] at hr
  obtain ⟨r0, hr0, rfl⟩ := hr
  have hlen := hrect r0 hr0
  have hEc := cellAt_append_old B.headers ["ESG Score", "Risk"] r0
    [Cell.num (derivedOf B.headers r0), Cell.str (risk (derivedOf B.headers r0))] "E" hE hlen
  have hSc := cellAt_append_old B.headers ["ESG Score", "Risk"] r0
    [Cell.num (derivedOf B.headers r0), Cell.str (risk (derivedOf B.headers r0))] "S" hS hlen
  have hGc := cellAt_append_old B.headers ["ESG Score", "Risk"] r0
    [Cell.num (derivedOf B.headers r0), Cell.str (risk (derivedOf B.headers r0))] "G" hG hlen
  have hDc := cellAt_append_new B.headers ["ESG Score", "Risk"] r0
    [Cell.num (derivedOf B.headers r0), Cell.str (risk (derivedOf B.headers r0))] "ESG Score" hESG hlen
  have hRc := cellAt_append_new B.headers ["ESG Score", "Risk"] r0
    [Cell.num (derivedOf B.headers r0), Cell.str (risk (derivedOf B.headers r0))] "Risk" hRK hlen
  refine ⟨?_, ?_⟩
  · rw [hDc, hEc, hSc, hGc]; rfl
  · rw [hRc, hEc, hSc, hGc]; rfl

theorem processLine_length (l : String) (r : List Cell) (h : processLine l = some r) :
    r.length = 4 := by
  unfold processLine at h
  dsimp only at h
  split at h
  · split at h
    · injection h with h2
      subst h2; rfl
    · exact Option.noConfusion h
  · exact Option.noConfusion h

theorem sampleDF_facts :
    "E" ∈ sampleDF.headers ∧ "S" ∈ sampleDF.headers ∧ "G" ∈ sampleDF.headers ∧
    "ESG Score" ∉ sampleDF.headers ∧ "Risk" ∉ sampleDF.headers := by decide

theorem sampleDF_rect : Rect sampleDF := by
  show ∀ r ∈ sampleDF.rows, r.length = sampleDF.headers.length
  decide

theorem normalizeCsv_ok (raw : DataFrame) (enum : List String) (t : DataFrame)
    (h : normalizeCsv raw enum = .ok t) :
    t = projectCols ⟨(raw.headers.map pyStrip).map renameHeader, raw.rows⟩ enum := by
  unfold normalizeCsv at h
  dsimp only at h
  split at h
  · injection h with h2
    exact h2.symm
  · exact Except.noConfusion h

theorem projectCols_rect (df : DataFrame) (names : List String) : Rect (projectCols df names) := by
  intro r hr
  simp only [projectCols, List.mem_map] at hr ⊢
  obtain ⟨r0, -, rfl⟩ := hr
  simp [List.length_map]

/-- The row invariant of the active table: on every path of `scriptRun`,
every displayed row's `ESG Score` cell is the rounded E/S/G mean of that
row and its `Risk` cell is the risk lambda of that rounded mean. `enum`
ranges over the possible enumeration orders of the Python set `required`. -/
theorem run_row_spec (u : Upload) (enum : List String) (hperm : enum.Perm canonicalCols) :
    ∀ r ∈ (scriptRun u enum).1.rows,
      cellAt (scriptRun u enum).1.headers r "ESG Score" =
        Cell.num (round1 ((asNum (cellAt (scriptRun u enum).1.headers r "E") +
          asNum (cellAt (scriptRun u enum).1.headers r "S") +
          asNum (cellAt (scriptRun u enum).1.headers r "G")) / 3)) ∧
      cellAt (scriptRun u enum).1.headers r "Risk" =
        Cell.str (risk (round1 ((asNum (cellAt (scriptRun u enum).1.headers r "E") +
          asNum (cellAt (scriptRun u enum).1.headers r "S") +
          asNum (cellAt (scriptRun u enum).1.headers r "G")) / 3))) := by
  obtain ⟨hE0, hS0, hG0, hD0, hR0⟩ := sampleDF_facts
  match u with
  | .noUpload =>
      exact addDerived_row_spec sampleDF hE0 hS0 hG0 hD0 hR0 sampleDF_rect
  | .csv raw =>
      cases h : normalizeCsv raw enum with
      | error miss =>
          simp only [scriptRun, h]
          exact addDerived_row_spec sampleDF hE0 hS0 hG0 hD0 hR0 sampleDF_rect
      | ok t =>
          simp only [scriptRun, h]
          have ht := normalizeCsv_ok raw enum t h
          have hhead : t.headers = enum := by rw [ht]; rfl
          refine addDerived_row_spec t ?_ ?_ ?_ ?_ ?_ ?_
          · exact hhead ▸ hperm.mem_iff.mpr (by decide)
          · exact hhead ▸ hperm.mem_iff.mpr (by decide)
          · exact hhead ▸ hperm.mem_iff.mpr (by decide)
          · rw [hhead]; intro hm; exact absurd (hperm.mem_iff.mp hm) (by decide)
          · rw [hhead]; intro hm; exact absurd (hperm.mem_iff.mp hm) (by decide)
          · rw [ht]; exact projectCols_rect _ _
  | .pdf text =>
      by_cases hemp : (pdfRows text).isEmpty
      · simp only [scriptRun, hemp, if_true]
        exact addDerived_row_spec sampleDF hE0 hS0 hG0 hD0 hR0 sampleDF_rect
      · simp only [scriptRun, hemp, if_false]
        refine addDerived_row_spec ⟨canonicalCols, pdfRows text⟩
          (by show "E" ∈ canonicalCols; decide) (by show "S" ∈ canonicalCols; decide)
          (by show "G" ∈ canonicalCols; decide) (by show "ESG Score" ∉ canonicalCols; decide)
          (by show "Risk" ∉ canonicalCols; decide) ?_
        intro r hr
        simp only [pdfRows, List.mem_filterMap] at hr
        obtain ⟨l, -, hl⟩ := hr
        exact processLine_length l r hl

/-- Projecting to labelled columns preserves each projected column's cells. -/
theorem colByName_projectCols (df : DataFrame) (names : List String) (n : String)
    (hmem : n ∈ names) : colByName (projectCols df names) n = colByName df n := by
  unfold colByName projectCols cellAt
  dsimp only
  rw [List.map_map]
  refine List.map_congr_left ?_
  intro r hr
  exact getD_map_indexOf names n _ _ hmem

/-- Scoring leaves every pre-existing column unchanged. -/
theorem colByName_addDerived_old (X : DataFrame) (n : String) (hn : n ∈ X.headers)
    (hrect : Rect X) : colByName (addDerived X) n = colByName X n := by
  unfold colByName
  rw [addDerived_eq]
  dsimp only
  rw [List.map_map]
  refine List.map_congr_left ?_
  intro r hr
  exact cellAt_append_old _ _ _ _ _ hn (hrect r hr)

/-- The `ESG Score` column appended by scoring, cell by cell. -/
theorem colByName_addDerived_esg (X : DataFrame) (hn : "ESG Score" ∉ X.headers)
    (hrect : Rect X) :
    colByName (addDerived X) "ESG Score" =
      X.rows.map (fun r => Cell.num (derivedOf X.headers r)) := by
  unfold colByName
  rw [addDerived_eq]
  dsimp only
  rw [List.map_map]
  refine List.map_congr_left ?_
  intro r hr
  exact cellAt_append_new _ _ _ _ _ hn (hrect r hr)

/-- The `Risk` column appended by scoring, cell by cell. -/
theorem colByName_addDerived_risk (X : DataFrame) (hn : "Risk" ∉ X.headers)
    (hrect : Rect X) :
    colByName (addDerived X) "Risk" =
      X.rows.map (fun r => Cell.str (risk (derivedOf X.headers r))) := by
  unfold colByName
  rw [addDerived_eq]
  dsimp only
  rw [List.map_map]
  refine List.map_congr_left ?_
  intro r hr
  exact cellAt_append_new _ _ _ _ _ hn (hrect r hr)

/-- Two row lists agreeing on three projections agree on any function of
those projections. -/
theorem map_congr_three {α β γ : Type} (g : γ → γ → γ → β) (as bs : List α)
    (p1 p2 p3 : α → γ) (q1 q2 q3 : α → γ)
    (h1 : as.map p1 = bs.map q1) (h2 : as.map p2 = bs.map q2)
    (h3 : as.map p3 = bs.map q3) :
    as.map (fun a => g (p1 a) (p2 a) (p3 a)) = bs.map (fun b => g (q1 b) (q2 b) (q3 b)) := by
  induction as generalizing bs with
  | nil =>
      cases bs with
      | nil => rfl
      | cons b bs => simp at h1
  | cons a as ih =>
      cases bs with
      | nil => simp at h1
      | cons b bs =>
          simp only [List.map_cons, List.cons.injEq] at h1 h2 h3 ⊢
          exact ⟨by rw [h1.1, h2.1, h3.1], ih bs h1.2 h2.2 h3.2⟩

/-- A list of four cells is the list of its first four entries. -/
theorem list_four_eta (r : List Cell) (h : r.length = 4) :
    [r.getD 0 (Cell.str ""), r.getD 1 (Cell.str ""), r.getD 2 (Cell.str ""),
      r.getD 3 (Cell.str "")] = r := by
  rcases r with _ | ⟨a, _ | ⟨b, _ | ⟨c, _ | ⟨d, _ | ⟨e, t⟩⟩⟩⟩⟩ <;> simp_all

/-- On every path the active table is a scored table whose base headers are
the canonical names up to the set-enumeration order, with the two derived
columns appended last. -/
theorem run_headers (u : Upload) (enum : List String) (hperm : enum.Perm canonicalCols) :
    ∃ first4, (scriptRun u enum).1.headers = first4 ++ ["ESG Score", "Risk"] ∧
      first4.Perm canonicalCols := by
  match u with
  | .noUpload => exact ⟨canonicalCols, rfl, List.Perm.refl _⟩
  | .csv raw =>
      cases h : normalizeCsv raw enum with
      | error miss =>
          simp only [scriptRun, h]
          exact ⟨canonicalCols, rfl, List.Perm.refl _⟩
      | ok t =>
          simp only [scriptRun, h]
          refine ⟨enum, ?_, hperm⟩
          rw [normalizeCsv_ok raw enum t h]
          rfl
  | .pdf text =>
      by_cases hemp : (pdfRows text).isEmpty
      · simp only [scriptRun, hemp, if_true]
        exact ⟨canonicalCols, rfl, List.Perm.refl _⟩
      · simp only [scriptRun, hemp, if_false]
        exact ⟨canonicalCols, rfl, List.Perm.refl _⟩

/-! ### Claim theorems

Batteries seals the rational operations (`@[irreducible]`); reopening them
locally lets `decide` evaluate the embedded script on concrete inputs. -/

section

attribute [local semireducible] Rat.add Rat.mul Rat.sub Rat.inv Rat.ofScientific

theorem sample_tesla_row_mem :
    [Cell.str "Tesla", Cell.num 75, Cell.num 65, Cell.num 78, Cell.num 72.7, Cell.str "Medium"] ∈
      (scriptRun Upload.noUpload canonicalCols).1.rows := by
  have hrows : (scriptRun Upload.noUpload canonicalCols).1.rows =
      [Cell.str "Tesla", Cell.num 75, Cell.num 65, Cell.num 78, Cell.num 72.7, Cell.str "Medium"] ::
      (scriptRun Upload.noUpload canonicalCols).1.rows.tail := by decide
  rw [hrows]
  exact List.Mem.head _

/-- C1: on every source path of the script (sample data, CSV upload, PDF
extraction) and every admissible enumeration order of the `required` set,
every row of the active table has an `ESG Score` cell equal to the
arithmetic mean `(E + S + G) / 3` rounded to one decimal place. -/
theorem spec_C1 (u : Upload) (enum : List String) (hperm : enum.Perm canonicalCols)
    (r : List Cell) (hr : r ∈ (scriptRun u enum).1.rows) :
    cellAt (scriptRun u enum).1.headers r "ESG Score" =
      Cell.num (round1 ((asNum (cellAt (scriptRun u enum).1.headers r "E") +
        asNum (cellAt (scriptRun u enum).1.headers r "S") +
        asNum (cellAt (scriptRun u enum).1.headers r "G")) / 3)) :=
  (run_row_spec u enum hperm r hr).1

theorem spec_C1_witness :
    cellAt (scriptRun Upload.noUpload canonicalCols).1.headers
      [Cell.str "Tesla", Cell.num 75, Cell.num 65, Cell.num 78, Cell.num 72.7, Cell.str "Medium"]
      "ESG Score" =
      Cell.num (round1 ((asNum (cellAt (scriptRun Upload.noUpload canonicalCols).1.headers
        [Cell.str "Tesla", Cell.num 75, Cell.num 65, Cell.num 78, Cell.num 72.7, Cell.str "Medium"] "E") +
        asNum (cellAt (scriptRun Upload.noUpload canonicalCols).1.headers
        [Cell.str "Tesla", Cell.num 75, Cell.num 65, Cell.num 78, Cell.num 72.7, Cell.str "Medium"] "S") +
        asNum (cellAt (scriptRun Upload.noUpload canonicalCols).1.headers
        [Cell.str "Tesla", Cell.num 75, Cell.num 65, Cell.num 78, Cell.num 72.7, Cell.str "Medium"] "G")) / 3)) :=
  spec_C1 Upload.noUpload canonicalCols (by decide)
    [Cell.str "Tesla", Cell.num 75, Cell.num 65, Cell.num 78, Cell.num 72.7, Cell.str "Medium"]
    sample_tesla_row_mem

/-- C2: on every path, every displayed row's `Risk` cell is `"Low"` iff its
rounded `ESG Score` is at least 80, `"Medium"` iff the score is in
`[60, 80)`, and `"High"` iff it is below 60; the boundary scores 80 and 60
classify as `"Low"` and `"Medium"`. -/
theorem spec_C2 (u : Upload) (enum : List String) (hperm : enum.Perm canonicalCols)
    (r : List Cell) (hr : r ∈ (scriptRun u enum).1.rows) :
    (cellAt (scriptRun u enum).1.headers r "Risk" = Cell.str "Low" ↔
       80 ≤ asNum (cellAt (scriptRun u enum).1.headers r "ESG Score")) ∧
    (cellAt (scriptRun u enum).1.headers r "Risk" = Cell.str "Medium" ↔
       60 ≤ asNum (cellAt (scriptRun u enum).1.headers r "ESG Score") ∧
       asNum (cellAt (scriptRun u enum).1.headers r "ESG Score") < 80) ∧
    (cellAt (scriptRun u enum).1.headers r "Risk" = Cell.str "High" ↔
       asNum (cellAt (scriptRun u enum).1.headers r "ESG Score") < 60) ∧
    risk 80 = "Low" ∧ risk 60 = "Medium" := by
  obtain ⟨hesg, hrisk⟩ := run_row_spec u enum hperm r hr
  rw [hesg, hrisk]
  simp only [asNum, Cell.str.injEq]
  exact ⟨risk_low_iff _, risk_medium_iff _, risk_high_iff _, by decide, by decide⟩

theorem spec_C2_witness :
    (cellAt (scriptRun Upload.noUpload canonicalCols).1.headers
      [Cell.str "Tesla", Cell.num 75, Cell.num 65, Cell.num 78, Cell.num 72.7, Cell.str "Medium"]
      "Risk" = Cell.str "Low" ↔
       80 ≤ asNum (cellAt (scriptRun Upload.noUpload canonicalCols).1.headers
      [Cell.str "Tesla", Cell.num 75, Cell.num 65, Cell.num 78, Cell.num 72.7, Cell.str "Medium"]
      "ESG Score")) ∧
    (cellAt (scriptRun Upload.noUpload canonicalCols).1.headers
      [Cell.str "Tesla", Cell.num 75, Cell.num 65, Cell.num 78, Cell.num 72.7, Cell.str "Medium"]
      "Risk" = Cell.str "Medium" ↔
       60 ≤ asNum (cellAt (scriptRun Upload.noUpload canonicalCols).1.headers
      [Cell.str "Tesla", Cell.num 75, Cell.num 65, Cell.num 78, Cell.num 72.7, Cell.str "Medium"]
      "ESG Score") ∧
       asNum (cellAt (scriptRun Upload.noUpload canonicalCols).1.headers
      [Cell.str "Tesla", Cell.num 75, Cell.num 65, Cell.num 78, Cell.num 72.7, Cell.str "Medium"]
      "ESG Score") < 80) ∧
    (cellAt (scriptRun Upload.noUpload canonicalCols).1.headers
      [Cell.str "Tesla", Cell.num 75, Cell.num 65, Cell.num 78, Cell.num 72.7, Cell.str "Medium"]
      "Risk" = Cell.str "High" ↔
       asNum (cellAt (scriptRun Upload.noUpload canonicalCols).1.headers
      [Cell.str "Tesla", Cell.num 75, Cell.num 65, Cell.num 78, Cell.num 72.7, Cell.str "Medium"]
      "ESG Score") < 60) ∧
    risk 80 = "Low" ∧ risk 60 = "Medium" :=
  spec_C2 Upload.noUpload canonicalCols (by decide)
    [Cell.str "Tesla", Cell.num 75, Cell.num 65, Cell.num 78, Cell.num 72.7, Cell.str "Medium"]
    sample_tesla_row_mem

/-- C9: the built-in sample rows (Tesla 75/65/78), (Microsoft 92/88/91) and
(Amazon 70/60/73) evaluate to ESG Scores 72.7, 90.3 and 67.7 with risk
tiers Medium, Low and Medium. -/
theorem spec_C9 :
    (addDerived sampleDF).rows.getD 0 [] =
      [Cell.str "Tesla", Cell.num 75, Cell.num 65, Cell.num 78, Cell.num 72.7, Cell.str "Medium"] ∧
    (addDerived sampleDF).rows.getD 2 [] =
      [Cell.str "Microsoft", Cell.num 92, Cell.num 88, Cell.num 91, Cell.num 90.3, Cell.str "Low"] ∧
    (addDerived sampleDF).rows.getD 3 [] =
      [Cell.str "Amazon", Cell.num 70, Cell.num 60, Cell.num 73, Cell.num 67.7, Cell.str "Medium"] := by
  decide

/-- C10: the risk classifier is total on all rationals — including negative
and greater-than-100 scores — and returns one of the three pairwise
distinct tiers, so every row of any active table carries one of them. -/
theorem spec_C10 (u : Upload) (enum : List String) (hperm : enum.Perm canonicalCols)
    (r : List Cell) (hr : r ∈ (scriptRun u enum).1.rows) :
    (∀ x : ℚ, risk x = "Low" ∨ risk x = "Medium" ∨ risk x = "High") ∧
    ("Low" : String) ≠ "Medium" ∧ ("Low" : String) ≠ "High" ∧ ("Medium" : String) ≠ "High" ∧
    (cellAt (scriptRun u enum).1.headers r "Risk" = Cell.str "Low" ∨
     cellAt (scriptRun u enum).1.headers r "Risk" = Cell.str "Medium" ∨
     cellAt (scriptRun u enum).1.headers r "Risk" = Cell.str "High") := by
  have htot : ∀ x : ℚ, risk x = "Low" ∨ risk x = "Medium" ∨ risk x = "High" := by
    intro x
    unfold risk
    split
    · exact Or.inl rfl
    · split
      · exact Or.inr (Or.inl rfl)
      · exact Or.inr (Or.inr rfl)
  refine ⟨htot, by decide, by decide, by decide, ?_⟩
  obtain ⟨-, hrisk⟩ := run_row_spec u enum hperm r hr
  rw [hrisk]
  rcases htot (round1 ((asNum (cellAt (scriptRun u enum).1.headers r "E") +
      asNum (cellAt (scriptRun u enum).1.headers r "S") +
      asNum (cellAt (scriptRun u enum).1.headers r "G")) / 3)) with h | h | h <;>
    rw [h]
  · exact Or.inl rfl
  · exact Or.inr (Or.inl rfl)
  · exact Or.inr (Or.inr rfl)

theorem spec_C10_witness :
    (∀ x : ℚ, risk x = "Low" ∨ risk x = "Medium" ∨ risk x = "High") ∧
    ("Low" : String) ≠ "Medium" ∧ ("Low" : String) ≠ "High" ∧ ("Medium" : String) ≠ "High" ∧
    (cellAt (scriptRun Upload.noUpload canonicalCols).1.headers
      [Cell.str "Tesla", Cell.num 75, Cell.num 65, Cell.num 78, Cell.num 72.7, Cell.str "Medium"]
      "Risk" = Cell.str "Low" ∨
     cellAt (scriptRun Upload.noUpload canonicalCols).1.headers
      [Cell.str "Tesla", Cell.num 75, Cell.num 65, Cell.num 78, Cell.num 72.7, Cell.str "Medium"]
      "Risk" = Cell.str "Medium" ∨
     cellAt (scriptRun Upload.noUpload canonicalCols).1.headers
      [Cell.str "Tesla", Cell.num 75, Cell.num 65, Cell.num 78, Cell.num 72.7, Cell.str "Medium"]
      "Risk" = Cell.str "High") :=
  spec_C10 Upload.noUpload canonicalCols (by decide)
    [Cell.str "Tesla", Cell.num 75, Cell.num 65, Cell.num 78, Cell.num 72.7, Cell.str "Medium"]
    sample_tesla_row_mem

/-- C5: each extracted PDF text line is processed independently: it is
split on whitespace into tokens; fewer than 4 tokens discards the line;
otherwise token 0 becomes Company as-is and tokens 1-3 must all parse as
floats, any parse failure discarding the whole line with no partial row;
successful lines accumulate as rows in line order. In particular
"Acme 80 70 90 extra" yields ("Acme", 80, 70, 90), while "Acme high low"
and "Acme eighty 70 90" are discarded. -/
theorem spec_C5 (text line : String) :
    pdfRows text = (splitLines text).filterMap processLine ∧
    ((lineTokens line).length < 4 → processLine line = none) ∧
    (∀ e s g : ℚ, 4 ≤ (lineTokens line).length →
       pyFloat ((lineTokens line).getD 1 "") = some e →
       pyFloat ((lineTokens line).getD 2 "") = some s →
       pyFloat ((lineTokens line).getD 3 "") = some g →
       processLine line =
         some [Cell.str ((lineTokens line).getD 0 ""), Cell.num e, Cell.num s, Cell.num g]) ∧
    (4 ≤ (lineTokens line).length →
       (pyFloat ((lineTokens line).getD 1 "") = none ∨
        pyFloat ((lineTokens line).getD 2 "") = none ∨
        pyFloat ((lineTokens line).getD 3 "") = none) →
       processLine line = none) ∧
    processLine "Acme 80 70 90 extra" =
      some [Cell.str "Acme", Cell.num 80, Cell.num 70, Cell.num 90] ∧
    processLine "Acme high low" = none ∧
    processLine "Acme eighty 70 90" = none := by
  refine ⟨rfl, ?_, ?_, ?_, by decide, by decide, by decide⟩
  · intro hlt
    unfold processLine
    dsimp only
    rw [if_neg (by omega)]
  · intro e s g h4 h1 h2 h3
    unfold processLine
    dsimp only
    rw [if_pos h4, h1, h2, h3]
  · intro h4 hbad
    unfold processLine
    dsimp only
    rw [if_pos h4]
    rcases hp1 : pyFloat ((lineTokens line).getD 1 "") with _ | e <;>
      rcases hp2 : pyFloat ((lineTokens line).getD 2 "") with _ | s <;>
      rcases hp3 : pyFloat ((lineTokens line).getD 3 "") with _ | g <;>
      simp_all

theorem spec_C5_witness :
    processLine "Acme high low" = none ∧
    processLine "Acme eighty 70 90" = none ∧
    processLine "Acme 80 70 90 extra" =
      some [Cell.str "Acme", Cell.num 80, Cell.num 70, Cell.num 90] :=
  ⟨(spec_C5 "" "Acme high low").2.1 (by decide),
   (spec_C5 "" "Acme eighty 70 90").2.2.2.1 (by decide)
     (Or.inl (by decide)),
   (spec_C5 "" "Acme 80 70 90 extra").2.2.1 80 70 90 (by decide) (by decide) (by decide)
     (by decide)⟩

/-- C3: each header is stripped and lower-cased, then classified by the
ordered first-match rules env/"e" → E, soc/"s" → S, gov/"g" → G,
comp → Company, otherwise left unmapped (keeping its stripped name, and
excluded by the projection to the required columns); the four headers
"Env Score", "Soc", "Gov", "Company Name" normalize to E, S, G, Company in
any original column order, making normalization succeed. -/
theorem spec_C3 (hs : List String) (hperm : hs.Perm ["Env Score", "Soc", "Gov", "Company Name"]) :
    (∀ h : String,
       (colMapLookup h = some "E" ↔
         (strContains (pyLower h) "env" || pyLower h == "e") = true) ∧
       (colMapLookup h = some "S" ↔
         (!(strContains (pyLower h) "env" || pyLower h == "e") &&
          (strContains (pyLower h) "soc" || pyLower h == "s")) = true) ∧
       (colMapLookup h = some "G" ↔
         (!(strContains (pyLower h) "env" || pyLower h == "e") &&
          !(strContains (pyLower h) "soc" || pyLower h == "s") &&
          (strContains (pyLower h) "gov" || pyLower h == "g")) = true) ∧
       (colMapLookup h = some "Company" ↔
         (!(strContains (pyLower h) "env" || pyLower h == "e") &&
          !(strContains (pyLower h) "soc" || pyLower h == "s") &&
          !(strContains (pyLower h) "gov" || pyLower h == "g") &&
          strContains (pyLower h) "comp") = true) ∧
       (colMapLookup h = none ↔
         (!(strContains (pyLower h) "env" || pyLower h == "e") &&
          !(strContains (pyLower h) "soc" || pyLower h == "s") &&
          !(strContains (pyLower h) "gov" || pyLower h == "g") &&
          !strContains (pyLower h) "comp") = true) ∧
       (colMapLookup h = none → renameHeader h = h)) ∧
    renameHeader (pyStrip "Env Score") = "E" ∧
    renameHeader (pyStrip "Soc") = "S" ∧
    renameHeader (pyStrip "Gov") = "G" ∧
    renameHeader (pyStrip "Company Name") = "Company" ∧
    ((hs.map pyStrip).map renameHeader).Perm canonicalCols ∧
    (∀ (rows : List (List Cell)) (enum : List String),
       normalizeCsv ⟨hs, rows⟩ enum =
         .ok (projectCols ⟨(hs.map pyStrip).map renameHeader, rows⟩ enum)) := by
  have hmapped : ((hs.map pyStrip).map renameHeader).Perm canonicalCols := by
    rw [List.map_map]
    exact (hperm.map (fun h => renameHeader (pyStrip h))).trans (by decide)
  refine ⟨?_, by decide, by decide, by decide, by decide, hmapped, ?_⟩
  · intro h
    unfold colMapLookup renameHeader
    dsimp only
    by_cases e1 : (strContains (pyLower h) "env" || pyLower h == "e") = true <;>
      by_cases e2 : (strContains (pyLower h) "soc" || pyLower h == "s") = true <;>
      by_cases e3 : (strContains (pyLower h) "gov" || pyLower h == "g") = true <;>
      by_cases e4 : strContains (pyLower h) "comp" = true <;>
      simp only [Bool.not_eq_true] at e1 e2 e3 e4 <;>
      simp [colMapLookup, e1, e2, e3, e4]
  · intro rows enum
    unfold normalizeCsv
    dsimp only
    rw [if_pos]
    rw [List.filter_eq_nil_iff]
    intro n hn
    have hmem : n ∈ (hs.map pyStrip).map renameHeader := hmapped.mem_iff.mpr hn
    have helem := List.elem_iff.mpr hmem
    simp only [List.contains]
    rw [helem]
    decide

theorem spec_C3_witness :
    renameHeader (pyStrip "Env Score") = "E" ∧
    renameHeader (pyStrip "Soc") = "S" ∧
    renameHeader (pyStrip "Gov") = "G" ∧
    renameHeader (pyStrip "Company Name") = "Company" ∧
    ((["Gov", "Company Name", "Env Score", "Soc"].map pyStrip).map renameHeader).Perm
      canonicalCols :=
  ⟨(spec_C3 ["Env Score", "Soc", "Gov", "Company Name"] (by decide)).2.1,
   (spec_C3 ["Env Score", "Soc", "Gov", "Company Name"] (by decide)).2.2.1,
   (spec_C3 ["Env Score", "Soc", "Gov", "Company Name"] (by decide)).2.2.2.1,
   (spec_C3 ["Env Score", "Soc", "Gov", "Company Name"] (by decide)).2.2.2.2.1,
   (spec_C3 ["Gov", "Company Name", "Env Score", "Soc"] (by decide)).2.2.2.2.2.1⟩

/-- A CSV whose headers resolve none of the E/S/G columns. -/
def badCsv : DataFrame := ⟨["Company", "Notes"], [[Cell.str "Acme", Cell.str "x"]]⟩

/-- A CSV that normalizes successfully to a table different from the
sample table. -/
def goodCsv : DataFrame :=
  ⟨["Company", "Env", "Soc", "Gov"], [[Cell.str "Acme", Cell.num 90, Cell.num 80, Cell.num 70]]⟩

/-- C4, counterexample: after a failing CSV upload the script does show the
missing-columns error, but the active table is the freshly rebuilt sample
table — so when the previously displayed table came from a successful
upload (here `goodCsv`, whose table differs from the sample), that table
does not remain: the script falls back to sample data. -/
theorem spec_C4_counterexample :
    (scriptRun (Upload.csv badCsv) canonicalCols).2 =
      some (RunError.missingColumns ["E", "S", "G"]) ∧
    (scriptRun (Upload.csv badCsv) canonicalCols).1 = addDerived sampleDF ∧
    (scriptRun (Upload.csv goodCsv) canonicalCols).1 ≠ addDerived sampleDF ∧
    (scriptRun (Upload.csv badCsv) canonicalCols).1 ≠
      (scriptRun (Upload.csv goodCsv) canonicalCols).1 := by
  decide

/-- C4, amended: when an upload fails — CSV normalization missing canonical
columns, or PDF extraction yielding zero rows — an error message is shown
(naming the missing canonical columns, respectively signalling no data),
but the active table becomes the freshly recomputed built-in sample table:
the script rebuilds `df` from `sample_data` on every rerun, so an earlier
successfully uploaded table does not remain displayed. -/
theorem spec_C4 (raw : DataFrame) (text : String) (enum : List String) (missing : List String)
    (hcsv : normalizeCsv raw enum = .error missing) (hpdf : pdfRows text = []) :
    scriptRun (Upload.csv raw) enum =
      (addDerived sampleDF, some (RunError.missingColumns missing)) ∧
    missing ≠ [] ∧ missing ⊆ canonicalCols ∧
    scriptRun (Upload.pdf text) enum = (addDerived sampleDF, some RunError.noDataExtracted) := by
  have hmiss : canonicalCols.filter
      (fun n => !(((raw.headers.map pyStrip).map renameHeader).contains n)) = missing ∧
      missing ≠ [] := by
    unfold normalizeCsv at hcsv
    dsimp only at hcsv
    split at hcsv
    · exact absurd hcsv (by simp)
    · rename_i hne
      injection hcsv with h2
      exact ⟨h2, h2 ▸ hne⟩
  refine ⟨by simp [scriptRun, hcsv], hmiss.2, ?_, by simp [scriptRun, hpdf]⟩
  rw [← hmiss.1]
  exact (List.filter_sublist _).subset

theorem spec_C4_witness :
    scriptRun (Upload.csv badCsv) canonicalCols =
      (addDerived sampleDF, some (RunError.missingColumns ["E", "S", "G"])) ∧
    (["E", "S", "G"] : List String) ≠ [] ∧
    (["E", "S", "G"] : List String) ⊆ canonicalCols ∧
    scriptRun (Upload.pdf "") canonicalCols =
      (addDerived sampleDF, some RunError.noDataExtracted) :=
  spec_C4 badCsv "" canonicalCols ["E", "S", "G"] (by rfl) (by decide)

/-- An already-canonical table used to exercise the normalizer. -/
def canonDemo : DataFrame :=
  ⟨["Company", "E", "S", "G"], [[Cell.str "Acme", Cell.num 10, Cell.num 20, Cell.num 30]]⟩

/-- C6, counterexample: `new_df[list(required)]` projects to the enumeration
order of the Python set `required`, which need not be `Company, E, S, G`;
under the admissible enumeration `E, S, G, Company`, normalizing an
already-canonical table returns a column-permuted table, not the identical
one. -/
theorem spec_C6_counterexample :
    normalizeCsv canonDemo ["E", "S", "G", "Company"] =
      .ok ⟨["E", "S", "G", "Company"],
        [[Cell.num 10, Cell.num 20, Cell.num 30, Cell.str "Acme"]]⟩ ∧
    (⟨["E", "S", "G", "Company"],
        [[Cell.num 10, Cell.num 20, Cell.num 30, Cell.str "Acme"]]⟩ : DataFrame) ≠ canonDemo := by
  exact ⟨by rfl, by decide⟩

/-- C6, amended: normalizing an already-canonical rectangular table
succeeds and is the pure projection to the set-enumeration order: it
preserves the row count and every canonical column's cells, and it is the
identity exactly when the enumeration order is `Company, E, S, G` — the
normalizer is idempotent up to that column permutation, not on the nose. -/
theorem spec_C6 (df : DataFrame) (enum : List String) (hhead : df.headers = canonicalCols)
    (hrect : Rect df) (hperm : enum.Perm canonicalCols) :
    normalizeCsv df enum = .ok (projectCols df enum) ∧
    (projectCols df enum).headers = enum ∧
    (∀ n ∈ canonicalCols, colByName (projectCols df enum) n = colByName df n) ∧
    (projectCols df enum).rows.length = df.rows.length ∧
    projectCols df canonicalCols = df := by
  obtain ⟨hs, rows⟩ := df
  dsimp only at hhead
  subst hhead
  refine ⟨?_, rfl, ?_, by simp [projectCols], ?_⟩
  · unfold normalizeCsv
    dsimp only
    have hren : (canonicalCols.map pyStrip).map renameHeader = canonicalCols := by decide
    rw [hren]
    rw [if_pos (by decide)]
  · intro n hn
    exact colByName_projectCols _ enum n (hperm.mem_iff.mpr hn)
  · unfold projectCols
    dsimp only
    congr 1
    have hid : ∀ r ∈ rows,
        canonicalCols.map (fun n => r.getD (canonicalCols.indexOf n) (Cell.str "")) = r := by
      intro r hr
      have hlen : r.length = 4 := hrect r hr
      calc canonicalCols.map (fun n => r.getD (canonicalCols.indexOf n) (Cell.str ""))
          = [r.getD 0 (Cell.str ""), r.getD 1 (Cell.str ""), r.getD 2 (Cell.str ""),
             r.getD 3 (Cell.str "")] := rfl
        _ = r := list_four_eta r hlen
    rw [List.map_congr_left hid]
    exact List.map_id rows

theorem spec_C6_witness :
    normalizeCsv canonDemo ["E", "S", "G", "Company"] =
      .ok (projectCols canonDemo ["E", "S", "G", "Company"]) ∧
    (projectCols canonDemo ["E", "S", "G", "Company"]).headers = ["E", "S", "G", "Company"] ∧
    colByName (projectCols canonDemo ["E", "S", "G", "Company"]) "Company" =
      colByName canonDemo "Company" ∧
    (projectCols canonDemo ["E", "S", "G", "Company"]).rows.length = canonDemo.rows.length ∧
    projectCols canonDemo canonicalCols = canonDemo :=
  have h := spec_C6 canonDemo ["E", "S", "G", "Company"] rfl
    (by show ∀ r ∈ canonDemo.rows, r.length = canonDemo.headers.length; decide) (by decide)
  ⟨h.1, h.2.1, h.2.2.1 "Company" (by decide), h.2.2.2.1, h.2.2.2.2⟩

/-- C7: round trip. Exporting any scored table through the download path
and re-importing the artifact through the CSV source path succeeds — the
canonical headers map to themselves and the `ESG Score`/`Risk` headers
stay unmapped and are dropped by the projection — and the resulting scored
table agrees with the original on every one of the six columns, the
derived two being recomputed from the same E/S/G cells. `enum1`/`enum2`
are the set-enumeration orders of the original and the re-importing run. -/
theorem spec_C7 (B : DataFrame) (enum1 enum2 : List String)
    (hperm1 : enum1.Perm canonicalCols) (hperm2 : enum2.Perm canonicalCols)
    (hhead : B.headers = enum1) (hrect : Rect B) :
    normalizeCsv (downloadArtifact (addDerived B)).data enum2 =
      .ok (projectCols (addDerived B) enum2) ∧
    ∀ n ∈ ["Company", "E", "S", "G", "ESG Score", "Risk"],
      colByName (addDerived (projectCols (addDerived B) enum2)) n =
        colByName (addDerived B) n := by
  have hTh : (addDerived B).headers = B.headers ++ ["ESG Score", "Risk"] := rfl
  have hmem2 : ∀ n ∈ canonicalCols, n ∈ enum2 := fun n hn => hperm2.mem_iff.mpr hn
  have hmemB : ∀ n ∈ canonicalCols, n ∈ B.headers := fun n hn => by
    rw [hhead]; exact hperm1.mem_iff.mpr hn
  have hnot2esg : "ESG Score" ∉ enum2 := fun hm => absurd (hperm2.mem_iff.mp hm) (by decide)
  have hnot2rk : "Risk" ∉ enum2 := fun hm => absurd (hperm2.mem_iff.mp hm) (by decide)
  have hnotBesg : "ESG Score" ∉ B.headers := by
    rw [hhead]; exact fun hm => absurd (hperm1.mem_iff.mp hm) (by decide)
  have hnotBrk : "Risk" ∉ B.headers := by
    rw [hhead]; exact fun hm => absurd (hperm1.mem_iff.mp hm) (by decide)
  have hrectP : Rect (projectCols (addDerived B) enum2) := projectCols_rect _ _
  constructor
  · show normalizeCsv (addDerived B) enum2 = .ok (projectCols (addDerived B) enum2)
    unfold normalizeCsv
    dsimp only
    have hpt : ∀ h ∈ (addDerived B).headers, (renameHeader ∘ pyStrip) h = h := by
      intro h hm
      rw [hTh, hhead] at hm
      rcases List.mem_append.mp hm with h1 | h1
      · have h2 : h ∈ canonicalCols := hperm1.mem_iff.mp h1
        simp only [canonicalCols, List.mem_cons, List.not_mem_nil, or_false] at h2
        rcases h2 with rfl | rfl | rfl | rfl <;> decide
      · simp only [List.mem_cons, List.not_mem_nil, or_false] at h1
        rcases h1 with rfl | rfl <;> decide
    have hren : ((addDerived B).headers.map pyStrip).map renameHeader = (addDerived B).headers := by
      rw [List.map_map, List.map_congr_left hpt]
      exact List.map_id _
    rw [hren, if_pos ?_]
    rw [List.filter_eq_nil_iff]
    intro n hn
    have hmem : n ∈ (addDerived B).headers := by
      rw [hTh]
      exact List.mem_append_left _ (hmemB n hn)
    have helem := List.elem_iff.mpr hmem
    simp only [List.contains]
    rw [helem]
    decide
  · have hbase : ∀ n ∈ canonicalCols,
        colByName (projectCols (addDerived B) enum2) n = colByName B n := by
      intro n hn
      rw [colByName_projectCols (addDerived B) enum2 n (hmem2 n hn)]
      exact colByName_addDerived_old B n (hmemB n hn) hrect
    have hold : ∀ n ∈ canonicalCols,
        colByName (addDerived (projectCols (addDerived B) enum2)) n =
          colByName (addDerived B) n := by
      intro n hn
      rw [colByName_addDerived_old _ n (hmem2 n hn) hrectP,
        colByName_projectCols (addDerived B) enum2 n (hmem2 n hn)]
    have hesg : colByName (addDerived (projectCols (addDerived B) enum2)) "ESG Score" =
        colByName (addDerived B) "ESG Score" := by
      rw [colByName_addDerived_esg _ hnot2esg hrectP, colByName_addDerived_esg B hnotBesg hrect]
      exact map_congr_three
        (fun c1 c2 c3 => Cell.num (round1 ((asNum c1 + asNum c2 + asNum c3) / 3))) _ _
        (fun r => cellAt (projectCols (addDerived B) enum2).headers r "E")
        (fun r => cellAt (projectCols (addDerived B) enum2).headers r "S")
        (fun r => cellAt (projectCols (addDerived B) enum2).headers r "G")
        (fun r => cellAt B.headers r "E")
        (fun r => cellAt B.headers r "S")
        (fun r => cellAt B.headers r "G")
        (hbase "E" (by decide)) (hbase "S" (by decide)) (hbase "G" (by decide))
    have hrk : colByName (addDerived (projectCols (addDerived B) enum2)) "Risk" =
        colByName (addDerived B) "Risk" := by
      rw [colByName_addDerived_risk _ hnot2rk hrectP, colByName_addDerived_risk B hnotBrk hrect]
      exact map_congr_three
        (fun c1 c2 c3 => Cell.str (risk (round1 ((asNum c1 + asNum c2 + asNum c3) / 3)))) _ _
        (fun r => cellAt (projectCols (addDerived B) enum2).headers r "E")
        (fun r => cellAt (projectCols (addDerived B) enum2).headers r "S")
        (fun r => cellAt (projectCols (addDerived B) enum2).headers r "G")
        (fun r => cellAt B.headers r "E")
        (fun r => cellAt B.headers r "S")
        (fun r => cellAt B.headers r "G")
        (hbase "E" (by decide)) (hbase "S" (by decide)) (hbase "G" (by decide))
    intro n hn
    fin_cases hn
    · exact hold "Company" (by decide)
    · exact hold "E" (by decide)
    · exact hold "S" (by decide)
    · exact hold "G" (by decide)
    · exact hesg
    · exact hrk

theorem spec_C7_witness :
    normalizeCsv (downloadArtifact (addDerived canonDemo)).data ["E", "S", "G", "Company"] =
      .ok (projectCols (addDerived canonDemo) ["E", "S", "G", "Company"]) ∧
    colByName (addDerived (projectCols (addDerived canonDemo) ["E", "S", "G", "Company"]))
      "ESG Score" = colByName (addDerived canonDemo) "ESG Score" :=
  have h := spec_C7 canonDemo canonicalCols ["E", "S", "G", "Company"] (by decide) (by decide)
    rfl (by show ∀ r ∈ canonDemo.rows, r.length = canonDemo.headers.length; decide)
  ⟨h.1, h.2 "ESG Score" (by decide)⟩

/-- C8, counterexample: on the CSV upload path the projection
`new_df[list(required)]` fixes the exported column order to the runtime
set-enumeration order; under the admissible enumeration `E, S, G, Company`
the artifact's columns are not `Company, E, S, G, ESG Score, Risk`. -/
theorem spec_C8_counterexample :
    (downloadArtifact (scriptRun (Upload.csv goodCsv) ["E", "S", "G", "Company"]).1).data.headers =
      ["E", "S", "G", "Company", "ESG Score", "Risk"] ∧
    (downloadArtifact (scriptRun (Upload.csv goodCsv) ["E", "S", "G", "Company"]).1).data.headers ≠
      ["Company", "E", "S", "G", "ESG Score", "Risk"] := by
  exact ⟨by rfl, by decide⟩

/-- C8, amended: the artifact is offered as `esg_scores.csv` with MIME
`text/csv`, UTF-8 encoded, comma-separated, with a header row and exactly
the active table's rows; its columns are exactly the four canonical ones
followed by `ESG Score` and `Risk` last, the canonical four appearing in
the runtime set-enumeration order on the CSV path (on the sample path the
order is exactly `Company, E, S, G, ESG Score, Risk`). -/
theorem spec_C8 (u : Upload) (enum : List String) (hperm : enum.Perm canonicalCols) :
    (downloadArtifact (scriptRun u enum).1).fileName = "esg_scores.csv" ∧
    (downloadArtifact (scriptRun u enum).1).mime = "text/csv" ∧
    (downloadArtifact (scriptRun u enum).1).encoding = "utf-8" ∧
    (downloadArtifact (scriptRun u enum).1).sep = "," ∧
    (downloadArtifact (scriptRun u enum).1).includeHeader = true ∧
    (downloadArtifact (scriptRun u enum).1).data = (scriptRun u enum).1 ∧
    (∃ first4, (downloadArtifact (scriptRun u enum).1).data.headers =
        first4 ++ ["ESG Score", "Risk"] ∧ first4.Perm canonicalCols) ∧
    (downloadArtifact (addDerived sampleDF)).data.headers =
      ["Company", "E", "S", "G", "ESG Score", "Risk"] := by
  refine ⟨rfl, rfl, rfl, rfl, rfl, rfl, ?_, by decide⟩
  exact run_headers u enum hperm

theorem spec_C8_witness :
    (downloadArtifact (scriptRun (Upload.csv goodCsv) ["E", "S", "G", "Company"]).1).fileName =
      "esg_scores.csv" ∧
    (downloadArtifact (scriptRun (Upload.csv goodCsv) ["E", "S", "G", "Company"]).1).mime =
      "text/csv" ∧
    (downloadArtifact (scriptRun (Upload.csv goodCsv) ["E", "S", "G", "Company"]).1).encoding =
      "utf-8" ∧
    (downloadArtifact (scriptRun (Upload.csv goodCsv) ["E", "S", "G", "Company"]).1).sep = "," ∧
    (downloadArtifact (scriptRun (Upload.csv goodCsv) ["E", "S", "G", "Company"]).1).includeHeader =
      true ∧
    (downloadArtifact (scriptRun (Upload.csv goodCsv) ["E", "S", "G", "Company"]).1).data =
      (scriptRun (Upload.csv goodCsv) ["E", "S", "G", "Company"]).1 ∧
    (downloadArtifact (addDerived sampleDF)).data.headers =
      ["Company", "E", "S", "G", "ESG Score", "Risk"] :=
  have h := spec_C8 (Upload.csv goodCsv) ["E", "S", "G", "Company"] (by decide)
  ⟨h.1, h.2.1, h.2.2.1, h.2.2.2.1, h.2.2.2.2.1, h.2.2.2.2.2.1, h.2.2.2.2.2.2.2⟩

end
